import Mathlib

/-!
Shallow embedding of the EvorBrain backend core (src-tauri): the entity data
model, the cascading-archive repository operations, the hard-delete command
handlers, the migration ledger runner, and the database-path validation.

Conventions of the embedding:
* `DateTime<Utc>` timestamps are modelled as `Nat`; each Rust function that
  calls `Utc::now()` once takes the captured value as an explicit `now`
  parameter.
* A SQL `UPDATE ... WHERE p` is modelled as `updateWhere p f` over the table's
  row list; `rows_affected()` is the count of rows matching the predicate in
  the pre-update table.
* A sqlx transaction is modelled by the `Except` monad: an operation either
  returns the whole post-commit database (`.ok`) or an error (`.error`), in
  which case the caller keeps the unchanged pre-call database (dropping an
  uncommitted transaction rolls it back).
-/

deriving instance DecidableEq for Except

namespace EvorBrain

/-- Single quote character, used to reproduce Rust `format!` messages. -/
def squote : String := String.singleton (Char.ofNat 39)

/-! ## Data model (src-tauri/src/db/models.rs) -/

/-- `ProjectStatus` from db/models.rs. -/
inductive ProjectStatus where
  | Planning | Active | OnHold | Completed | Cancelled
deriving Repr, DecidableEq

/-- `TaskPriority` from db/models.rs. -/
inductive TaskPriority where
  | Low | Medium | High | Urgent
deriving Repr, DecidableEq

/-- `LifeArea` row from db/models.rs. -/
structure LifeArea where
  id : String
  name : String
  description : Option String
  color : Option String
  icon : Option String
  created_at : Nat
  updated_at : Nat
  archived_at : Option Nat
deriving Repr, DecidableEq

/-- `Goal` row from db/models.rs. -/
structure Goal where
  id : String
  life_area_id : String
  title : String
  description : Option String
  target_date : Option Nat
  created_at : Nat
  updated_at : Nat
  completed_at : Option Nat
  archived_at : Option Nat
deriving Repr, DecidableEq

/-- `Project` row from db/models.rs. -/
structure Project where
  id : String
  goal_id : String
  title : String
  description : Option String
  status : ProjectStatus
  created_at : Nat
  updated_at : Nat
  completed_at : Option Nat
  archived_at : Option Nat
deriving Repr, DecidableEq

/-- `Task` row from db/models.rs. -/
structure Task where
  id : String
  project_id : Option String
  parent_task_id : Option String
  title : String
  description : Option String
  priority : TaskPriority
  due_date : Option Nat
  created_at : Nat
  updated_at : Nat
  completed_at : Option Nat
  archived_at : Option Nat
deriving Repr, DecidableEq

/-- `Note` row from db/models.rs. -/
structure Note where
  id : String
  task_id : Option String
  project_id : Option String
  goal_id : Option String
  life_area_id : Option String
  title : String
  content : String
  created_at : Nat
  updated_at : Nat
  archived_at : Option Nat
deriving Repr, DecidableEq

/-- The entity tables of the SQLite database (life_areas, goals, projects,
tasks, notes), each a list of rows in storage order. -/
structure Db where
  life_areas : List LifeArea
  goals : List Goal
  projects : List Project
  tasks : List Task
  notes : List Note
deriving Repr, DecidableEq

/-! ## SQL statement semantics -/

/-- `UPDATE t SET <f> WHERE <p>`: apply `f` to every row matching `p`. -/
def updateWhere (p : α → Bool) (f : α → α) (rows : List α) : List α :=
  rows.map fun r => if p r then f r else r

/-! ## Error type (src-tauri/src/error.rs) -/

/-- `ErrorCode` from error.rs. -/
inductive ErrorCode where
  | DatabaseConnection | DatabaseQuery | DatabaseMigration
  | ValidationError | InvalidInput | InvalidId
  | NotFound | AlreadyExists | CannotDelete | CannotUpdate
  | InternalError | ConfigError | IoError
  | Unauthorized | Forbidden
deriving Repr, DecidableEq

/-- `AppError` from error.rs (the logging side effect of `AppError::new` is
not modelled). -/
structure AppError where
  code : ErrorCode
  message : String
  details : Option String
deriving Repr, DecidableEq

/-- `AppError::not_found(entity, id)`: message
`format!("{} with id '{}' not found", entity, id)`. -/
def AppError.not_found (entity id : String) : AppError :=
  { code := ErrorCode.NotFound
    message := entity ++ " with id " ++ squote ++ id ++ squote ++ " not found"
    details := none }

namespace Repository

/-! ## Cascading archive operations (src-tauri/src/db/repository.rs)

Each function mirrors one `Repository` method: the sequence of SQL statements
executed inside its transaction, in source order. `now` is the single
`Utc::now()` captured at the start of the method. Database I/O failures of
individual statements are not modelled (every statement is a pure list
operation here); the error paths that remain are exactly the ones decided by
the data, such as the `rows_affected() == 0` checks. -/

/-- `Repository::delete_life_area` (repository.rs lines 123-216): archive the
life area (`WHERE id = ? AND archived_at IS NULL`, NotFound when zero rows
affected), then cascade-archive goals, projects, tasks and notes of the area,
each step filtered by `archived_at IS NULL`, all in one transaction. -/
def delete_life_area (db : Db) (id : String) (now : Nat) : Except AppError Db :=
  let rootPred : LifeArea → Bool := fun r => r.id == id && r.archived_at == none
  let life_areas :=
    updateWhere rootPred
      (fun r => { r with archived_at := some now, updated_at := now }) db.life_areas
  if db.life_areas.countP rootPred == 0 then
    Except.error (AppError.not_found "Life area" id)
  else
    let goals :=
      updateWhere (fun g => g.life_area_id == id && g.archived_at == none)
        (fun g => { g with archived_at := some now, updated_at := now }) db.goals
    let projects :=
      updateWhere
        (fun p => goals.any (fun g => g.id == p.goal_id && g.life_area_id == id)
                  && p.archived_at == none)
        (fun p => { p with archived_at := some now, updated_at := now }) db.projects
    let tasks :=
      updateWhere
        (fun t => (t.project_id.any fun pid =>
                    projects.any fun p => p.id == pid &&
                      goals.any fun g => g.id == p.goal_id && g.life_area_id == id)
                  && t.archived_at == none)
        (fun t => { t with archived_at := some now, updated_at := now }) db.tasks
    let notes :=
      updateWhere (fun n => n.life_area_id == some id && n.archived_at == none)
        (fun n => { n with archived_at := some now, updated_at := now }) db.notes
    Except.ok
      { life_areas := life_areas
        goals := goals
        projects := projects
        tasks := tasks
        notes := notes }

/-- `Repository::restore_life_area` (repository.rs lines 218-239): set
`archived_at = NULL` on the life area (`WHERE id = ? AND archived_at IS NOT
NULL`), NotFound when zero rows affected, then re-fetch the row
(`get_life_area`). No other table is touched. -/
def restore_life_area (db : Db) (id : String) (now : Nat) :
    Except AppError (Db × LifeArea) :=
  let pred : LifeArea → Bool := fun r => r.id == id && r.archived_at != none
  let life_areas :=
    updateWhere pred
      (fun r => { r with archived_at := none, updated_at := now }) db.life_areas
  if db.life_areas.countP pred == 0 then
    Except.error (AppError.not_found "Archived life area" id)
  else
    match life_areas.find? (fun r => r.id == id) with
    | some r => Except.ok ({ db with life_areas := life_areas }, r)
    | none => Except.error (AppError.not_found "Life area" id)

/-- `Repository::archive_project_cascade` (repository.rs lines 313-343):
archive the project, its tasks and its notes. Note that none of the three
UPDATE statements carries an `archived_at IS NULL` filter, and the root
`rows_affected` is not checked; the method always commits and returns Ok. -/
def archive_project_cascade (db : Db) (project_id : String) (now : Nat) :
    Except AppError Db :=
  let projects :=
    updateWhere (fun p => p.id == project_id)
      (fun p => { p with archived_at := some now, updated_at := now }) db.projects
  let tasks :=
    updateWhere (fun t => t.project_id == some project_id)
      (fun t => { t with archived_at := some now, updated_at := now }) db.tasks
  let notes :=
    updateWhere (fun n => n.project_id == some project_id)
      (fun n => { n with archived_at := some now, updated_at := now }) db.notes
  Except.ok { db with projects := projects, tasks := tasks, notes := notes }

/-- `Repository::archive_goal_cascade` (repository.rs lines 346-396): archive
the goal (no `archived_at` filter on the root, no `rows_affected` check),
then projects of the goal, tasks of those projects and notes of the goal,
each descendant step filtered by `archived_at IS NULL`. Always returns Ok. -/
def archive_goal_cascade (db : Db) (goal_id : String) (now : Nat) :
    Except AppError Db :=
  let goals :=
    updateWhere (fun g => g.id == goal_id)
      (fun g => { g with archived_at := some now, updated_at := now }) db.goals
  let projects :=
    updateWhere (fun p => p.goal_id == goal_id && p.archived_at == none)
      (fun p => { p with archived_at := some now, updated_at := now }) db.projects
  let tasks :=
    updateWhere
      (fun t => (t.project_id.any fun pid =>
                  projects.any fun p => p.id == pid && p.goal_id == goal_id)
                && t.archived_at == none)
      (fun t => { t with archived_at := some now, updated_at := now }) db.tasks
  let notes :=
    updateWhere (fun n => n.goal_id == some goal_id && n.archived_at == none)
      (fun n => { n with archived_at := some now, updated_at := now }) db.notes
  Except.ok
    { db with
      goals := goals
      projects := projects
      tasks := tasks
      notes := notes }

/-- `Repository::archive_task_cascade` (repository.rs lines 399-432): archive
the task (no `archived_at` filter on the root, no `rows_affected` check),
then its subtasks and its notes, each filtered by `archived_at IS NULL`.
Always returns Ok. -/
def archive_task_cascade (db : Db) (task_id : String) (now : Nat) :
    Except AppError Db :=
  let tasks0 :=
    updateWhere (fun t => t.id == task_id)
      (fun t => { t with archived_at := some now, updated_at := now }) db.tasks
  let tasks :=
    updateWhere (fun t => t.parent_task_id == some task_id && t.archived_at == none)
      (fun t => { t with archived_at := some now, updated_at := now }) tasks0
  let notes :=
    updateWhere (fun n => n.task_id == some task_id && n.archived_at == none)
      (fun n => { n with archived_at := some now, updated_at := now }) db.notes
  Except.ok { db with tasks := tasks, notes := notes }

end Repository

namespace Commands

/-! ## Hard-delete command handlers (src-tauri/src/commands/goals.rs,
src-tauri/src/commands/life_areas.rs)

These Tauri commands return `Result<(), String>`. The leading
`Uuid::parse_str` format validation is not modelled (it only adds an earlier
failure mode for malformed id strings and reads no database state); the
claims under proof concern the dependent-count check and the DELETE. -/

/-- `delete_goal` (commands/goals.rs lines 336-372): count projects with this
`goal_id`; if the count is positive, fail with the conflict message carrying
the count and perform no deletion; otherwise DELETE the goal row and fail
with a not-found message when zero rows were deleted. -/
def delete_goal (db : Db) (id : String) : Except String Db :=
  let project_count := db.projects.countP fun p => p.goal_id == id
  if project_count > 0 then
    Except.error ("Cannot delete goal: " ++ toString project_count ++
      " projects are still associated with it. Please delete or reassign them first.")
  else
    if db.goals.countP (fun g => g.id == id) == 0 then
      Except.error ("Goal with ID " ++ id ++ " not found")
    else
      Except.ok { db with goals := db.goals.filter fun g => !(g.id == id) }

/-- `delete_life_area` (commands/life_areas.rs lines 228-263): count goals
with this `life_area_id`; if the count is positive, fail with the conflict
message carrying the count and perform no deletion; otherwise DELETE the life
area row and fail with a not-found message when zero rows were deleted. -/
def delete_life_area (db : Db) (id : String) : Except String Db :=
  let goal_count := db.goals.countP fun g => g.life_area_id == id
  if goal_count > 0 then
    Except.error ("Cannot delete life area: " ++ toString goal_count ++
      " goals are still associated with it. Please delete or reassign them first.")
  else
    if db.life_areas.countP (fun r => r.id == id) == 0 then
      Except.error ("Life area with ID " ++ id ++ " not found")
    else
      Except.ok { db with life_areas := db.life_areas.filter fun r => !(r.id == id) }

end Commands

/-! ## Migration ledger (src-tauri/src/db/migrations/mod.rs)

The runner is generic in the schema state `σ` acted on by SQL scripts. A
script is its SQL text (as in the Rust `Migration` struct); the semantics of
executing a script against the schema is a parameter
`exec : String → σ → Except String σ`, and `calculate_checksum`
(`DefaultHasher` over the `up` text, an unspecified but deterministic hash)
is a parameter `hashFn : String → String`. -/

/-- `Migration` from migrations/mod.rs. -/
structure Migration where
  version : Int
  description : String
  up : String
  down : String
deriving Repr, DecidableEq

/-- A row of the `_migrations` ledger table (`applied_at`, filled by SQLite
`CURRENT_TIMESTAMP`, is not modelled; no claim reads it). -/
structure MigrationRecord where
  version : Int
  description : String
  checksum : String
deriving Repr, DecidableEq

/-- The database as seen by the migration runner: the `_migrations` ledger
table (in insertion order) and the rest of the schema, abstracted as `σ`.
`MigrationRunner::init` (CREATE TABLE IF NOT EXISTS for the ledger) is a
no-op here since the ledger table always exists in the model. -/
structure MigDb (σ : Type) where
  ledger : List MigrationRecord
  schema : σ
deriving Repr, DecidableEq

/-- `MigrationRunner::is_applied`: `SELECT COUNT(*) FROM _migrations WHERE
version = ?` is positive. -/
def is_applied (db : MigDb σ) (version : Int) : Bool :=
  db.ledger.countP (fun r => r.version == version) > 0

/-- Insertion into a list sorted ascending. -/
def insertAsc (x : Int) : List Int → List Int
  | [] => [x]
  | y :: ys => if x ≤ y then x :: y :: ys else y :: insertAsc x ys

/-- Ascending sort, modelling `ORDER BY version ASC`. -/
def sortAsc : List Int → List Int
  | [] => []
  | x :: xs => insertAsc x (sortAsc xs)

/-- `MigrationRunner::get_applied_migrations`: `SELECT version FROM
_migrations ORDER BY version ASC`. -/
def get_applied_migrations (db : MigDb σ) : List Int :=
  sortAsc (db.ledger.map (fun r => r.version))

/-- `MigrationRunner::get_latest_version`: `SELECT MAX(version) FROM
_migrations`. -/
def get_latest_version (db : MigDb σ) : Option Int :=
  (db.ledger.map (fun r => r.version)).max?

/-- The loop body of `MigrationRunner::migrate`, acting on the in-transaction
state `tx`. `is_applied` runs against the pool (a connection other than the
transaction's), so it reads the committed pre-transaction ledger `db0`; the
`INSERT INTO _migrations` fails with a UNIQUE-constraint violation if the
transaction already holds a row for that version (version is the primary
key). -/
def migrateGo (exec : String → σ → Except String σ) (hashFn : String → String)
    (db0 : MigDb σ) : List Migration → MigDb σ → Except String (MigDb σ)
  | [], tx => Except.ok tx
  | m :: rest, tx =>
    if is_applied db0 m.version then
      migrateGo exec hashFn db0 rest tx
    else
      match exec m.up tx.schema with
      | Except.error e => Except.error e
      | Except.ok schema1 =>
        if tx.ledger.any (fun r => r.version == m.version) then
          Except.error "UNIQUE constraint failed: _migrations.version"
        else
          migrateGo exec hashFn db0 rest
            { ledger := tx.ledger ++
                [{ version := m.version, description := m.description,
                   checksum := hashFn m.up }]
              schema := schema1 }

/-- `MigrationRunner::migrate` (migrations/mod.rs lines 51-79): begin one
transaction; for each script in list order, if its version is not yet
applied, execute its `up` and insert its ledger row; commit at the end. An
error anywhere propagates out and the transaction is dropped (rolled back). -/
def migrate (exec : String → σ → Except String σ) (hashFn : String → String)
    (migrations : List Migration) (db : MigDb σ) : Except String (MigDb σ) :=
  migrateGo exec hashFn db migrations db

/-- The committed database after a `migrate` call: on success the returned
state, on error the unchanged pre-call state (sqlx rolls back a dropped
transaction). -/
def migrateCommitted (exec : String → σ → Except String σ)
    (hashFn : String → String) (migrations : List Migration) (db : MigDb σ) :
    MigDb σ :=
  match migrate exec hashFn migrations db with
  | Except.ok db1 => db1
  | Except.error _ => db

/-- The loop of `MigrationRunner::rollback` over the applied-version list in
descending order: stop at the first version `≤ target`, otherwise `DELETE
FROM _migrations WHERE version = ?` (each statement auto-commits on the
pool; no transaction). No `down` script is executed anywhere in the loop —
`rollback` receives no migration scripts at all. -/
def rollbackGo (target : Int) : List Int → MigDb σ → MigDb σ
  | [], db => db
  | v :: rest, db =>
    if v ≤ target then db
    else rollbackGo target rest
      { db with ledger := db.ledger.filter (fun r => !(r.version == v)) }

/-- `MigrationRunner::rollback` (migrations/mod.rs lines 81-100): iterate the
applied versions in descending order and delete the ledger row of every
version strictly greater than the target (default 0). The schema `σ` is
never touched. -/
def rollback (target_version : Option Int) (db : MigDb σ) : MigDb σ :=
  rollbackGo (target_version.getD 0) (get_applied_migrations db).reverse db

/-! ## Path validation (src-tauri/src/database/path_security.rs)

Paths are modelled structurally: an absolute flag plus a component list.
`Path::canonicalize` is modelled as pure resolution of `..` and `.` segments
(the model assumes every path exists and contains no symlinks, so the
fallback branch for a not-yet-existing file collapses into the main branch
and canonicalization never fails). -/

/-- A path component: a normal name, `..`, or `.`. -/
inductive Component where
  | normal (s : String)
  | parentDir
  | curDir
deriving Repr, DecidableEq

/-- A filesystem path: whether it is absolute, and its components. -/
structure FsPath where
  absolute : Bool
  components : List Component
deriving Repr, DecidableEq

/-- One step of canonicalization of an absolute path, on the resolved stack
of normal segments: `..` pops (the parent of the root is the root), `.` is
dropped. -/
def resolveStep (acc : List String) : Component → List String
  | Component.normal s => acc ++ [s]
  | Component.parentDir => acc.dropLast
  | Component.curDir => acc

/-- Canonicalize the components of an absolute path into its normal
segments. -/
def canonicalizeAbs (cs : List Component) : List String :=
  cs.foldl resolveStep []

/-- `DatabaseError` (src-tauri/src/database/error.rs), restricted to the
variant `validate_path` produces. -/
inductive DatabaseError where
  | SecurityError (msg : String)
deriving Repr, DecidableEq

/-- `validate_path` (path_security.rs lines 6-46). `canonical_base` is the
canonicalized base directory (the segment list of `base_dir.canonicalize()`,
which the function computes first). An absolute requested path is rejected;
otherwise the request is joined onto the base, canonicalized, and rejected
unless the result still starts with the base. -/
def validate_path (canonical_base : List String) (requested_path : FsPath) :
    Except DatabaseError (List String) :=
  if requested_path.absolute then
    Except.error (DatabaseError.SecurityError "Absolute paths are not allowed")
  else
    let resolved := (canonical_base.map Component.normal) ++ requested_path.components
    let canonical_requested := canonicalizeAbs resolved
    if canonical_base.isPrefixOf canonical_requested then
      Except.ok canonical_requested
    else
      Except.error (DatabaseError.SecurityError
        "Path traversal attempt detected: requested path is outside the allowed directory")

/-! ## Sample data used by witnesses and counterexamples -/

def mkLifeArea (id : String) (archived : Option Nat) : LifeArea :=
  { id := id, name := "area", description := none, color := none, icon := none,
    created_at := 0, updated_at := 0, archived_at := archived }

def mkGoal (id life_area_id : String) (archived : Option Nat) : Goal :=
  { id := id, life_area_id := life_area_id, title := "goal", description := none,
    target_date := none, created_at := 0, updated_at := 0, completed_at := none,
    archived_at := archived }

def mkProject (id goal_id : String) (archived : Option Nat) : Project :=
  { id := id, goal_id := goal_id, title := "project", description := none,
    status := ProjectStatus.Active, created_at := 0, updated_at := 0,
    completed_at := none, archived_at := archived }

def mkTask (id : String) (project_id parent_task_id : Option String)
    (archived : Option Nat) : Task :=
  { id := id, project_id := project_id, parent_task_id := parent_task_id,
    title := "task", description := none, priority := TaskPriority.Medium,
    due_date := none, created_at := 0, updated_at := 0, completed_at := none,
    archived_at := archived }

def mkNote (id : String) (task_id project_id goal_id life_area_id : Option String)
    (archived : Option Nat) : Note :=
  { id := id, task_id := task_id, project_id := project_id, goal_id := goal_id,
    life_area_id := life_area_id, title := "note", content := "text",
    created_at := 0, updated_at := 0, archived_at := archived }

/-- Sample hierarchy: life area L1 with goal G1, project P1 under G1, task T1
under P1, and a note on L1 — everything unarchived. -/
def sampleDb : Db :=
  { life_areas := [mkLifeArea "L1" none]
    goals := [mkGoal "G1" "L1" none]
    projects := [mkProject "P1" "G1" none]
    tasks := [mkTask "T1" (some "P1") none none]
    notes := [mkNote "N1" none none none (some "L1") none] }

/-- Database for claim C1: project P1 whose task T1 and note N2 are already
archived (at times 1 and 2) before the cascade runs. -/
def clobberDb : Db :=
  { life_areas := []
    goals := []
    projects := [mkProject "P1" "G1" none]
    tasks := [mkTask "T1" (some "P1") none (some 1)]
    notes := [mkNote "N2" none (some "P1") none none (some 2)] }

/-- Script semantics for the C2 scenario: the schema is a table counter; the
up script creates a table, the down script drops it. -/
def execDemo : String → Nat → Except String Nat := fun s n =>
  if s == "CREATE TABLE demo (id INTEGER)" then Except.ok (n + 1)
  else if s == "DROP TABLE demo" then Except.ok (n - 1)
  else Except.error "unrecognized script"

def hashDemo : String → String := fun s => toString s.length

def migDemo : Migration :=
  { version := 1, description := "Initial schema",
    up := "CREATE TABLE demo (id INTEGER)", down := "DROP TABLE demo" }

/-- The database after applying `migDemo`: one ledger row, one table. -/
def migDbApplied : MigDb Nat :=
  { ledger := [{ version := 1, description := "Initial schema",
                 checksum := hashDemo migDemo.up }]
    schema := 1 }

/-- Database for the C4 counterexample: contains a life area and a goal, but
nothing with id G1. -/
def otherGoalDb : Db :=
  { life_areas := [mkLifeArea "L2" none]
    goals := [mkGoal "G2" "L2" none]
    projects := []
    tasks := []
    notes := [] }

/-- Database for the C8 witness: goal G1 has two projects, life area L1 has
three goals. -/
def blockedDb : Db :=
  { life_areas := [mkLifeArea "L1" none]
    goals := [mkGoal "G1" "L1" none, mkGoal "G2" "L1" none, mkGoal "G3" "L1" none]
    projects := [mkProject "P1" "G1" none, mkProject "P2" "G1" none]
    tasks := []
    notes := [] }

/-- Every row of `new` is either an unchanged row of `old` or carries the
operation's single timestamp in both `archived_at` and `updated_at`. -/
def stampedOrSame {α : Type} (old new : List α) (arch : α → Option Nat)
    (upd : α → Nat) (now : Nat) : Prop :=
  ∀ y ∈ new, y ∈ old ∨ (arch y = some now ∧ upd y = now)

/-- Every row of every table that a cascade modified carries the single
timestamp `now` in both `archived_at` and `updated_at`. -/
def cascadeStamp (db db1 : Db) (now : Nat) : Prop :=
  stampedOrSame db.life_areas db1.life_areas LifeArea.archived_at LifeArea.updated_at now ∧
  stampedOrSame db.goals db1.goals Goal.archived_at Goal.updated_at now ∧
  stampedOrSame db.projects db1.projects Project.archived_at Project.updated_at now ∧
  stampedOrSame db.tasks db1.tasks Task.archived_at Task.updated_at now ∧
  stampedOrSame db.notes db1.notes Note.archived_at Note.updated_at now

/-- The committed database after each cascade on the sample hierarchy at
time 9 (all four succeed). -/
def sampleAfterDeleteLA : Db :=
  match Repository.delete_life_area sampleDb "L1" 9 with
  | Except.ok d => d
  | Except.error _ => sampleDb

def sampleAfterGoalCascade : Db :=
  match Repository.archive_goal_cascade sampleDb "G1" 9 with
  | Except.ok d => d
  | Except.error _ => sampleDb

def sampleAfterProjectCascade : Db :=
  match Repository.archive_project_cascade sampleDb "P1" 9 with
  | Except.ok d => d
  | Except.error _ => sampleDb

def sampleAfterTaskCascade : Db :=
  match Repository.archive_task_cascade sampleDb "T1" 9 with
  | Except.ok d => d
  | Except.error _ => sampleDb

/-- The (database, row) pair returned by restoring L1 at time 11 after the
cascade archive at time 9. -/
def sampleRestored : Db × LifeArea :=
  match Repository.restore_life_area sampleAfterDeleteLA "L1" 11 with
  | Except.ok p => p
  | Except.error _ => (sampleAfterDeleteLA, mkLifeArea "L1" none)

/-- The scripts of `ms` whose version is not yet applied in `db` — the ones
`migrate` will run. -/
def pendingOf (db : MigDb σ) (ms : List Migration) : List Migration :=
  ms.filter (fun m => !(is_applied db m.version))

/-- The ledger rows `migrate` inserts for a list of scripts. -/
def ledgerRowsOf (hashFn : String → String) (ms : List Migration) :
    List MigrationRecord :=
  ms.map fun m =>
    { version := m.version
      description := m.description
      checksum := hashFn m.up }

/-- Sequential execution of the `up` scripts of a list of migrations. -/
def applyUps (exec : String → σ → Except String σ) :
    List Migration → σ → Except String σ
  | [], s => Except.ok s
  | m :: rest, s =>
    match exec m.up s with
    | Except.error e => Except.error e
    | Except.ok s1 => applyUps exec rest s1

/-! ## Helper lemmas about the SQL update semantics -/

theorem updateWhere_eq_self {α : Type} {p : α → Bool} {f : α → α} {l : List α}
    (h : ∀ x ∈ l, p x = false) : updateWhere p f l = l := by
  induction l with
  | nil => rfl
  | cons x xs ih =>
    simp only [updateWhere, List.map_cons, h x (List.mem_cons_self x xs),
      Bool.false_eq_true, if_false, List.cons.injEq, true_and]
    exact ih fun y hy => h y (List.mem_cons_of_mem x hy)

theorem mem_updateWhere {α : Type} {p : α → Bool} {f : α → α} {l : List α}
    {y : α} (hy : y ∈ updateWhere p f l) :
    ∃ x ∈ l, y = if p x then f x else x := by
  rw [updateWhere, List.mem_map] at hy
  obtain ⟨x, hx, hxy⟩ := hy
  exact ⟨x, hx, hxy.symm⟩

/-! ## Claim C1 -/

/-- Claim C1: the claim states that every cascade step's UPDATE only affects
rows whose archived_at is currently NULL, so a cascade never clobbers an
original archive timestamp. The task and note UPDATE statements of
`Repository::archive_project_cascade` carry no `archived_at IS NULL` filter:
running the cascade at time 5 overwrites the task's original archived_at = 1
and the note's original archived_at = 2 with 5. -/
theorem archive_project_cascade_clobbers_archived_rows :
    clobberDb.tasks.map Task.archived_at = [some 1] ∧
    clobberDb.notes.map Note.archived_at = [some 2] ∧
    (Repository.archive_project_cascade clobberDb "P1" 5).map
        (fun d => (d.tasks.map Task.archived_at, d.notes.map Note.archived_at)) =
      Except.ok ([some 5], [some 5]) := by
  decide

/-! ## Claim C2 -/

/-- Claim C2: the claim states that `rollback(T)` executes the `down` script
of every applied version above T. The code's rollback loop only issues
`DELETE FROM _migrations WHERE version = ?`; it receives no migration
scripts and never executes any `down`. Concretely: after applying the
version-1 migration (schema counter 1), `rollback(None)` empties the ledger
but leaves the schema at 1, although running the down script would have
returned it to 0. -/
theorem rollback_deletes_ledger_without_down :
    migrate execDemo hashDemo [migDemo] { ledger := [], schema := 0 } =
      Except.ok migDbApplied ∧
    (rollback none migDbApplied).ledger = [] ∧
    (rollback none migDbApplied).schema = 1 ∧
    execDemo migDemo.down migDbApplied.schema = Except.ok 0 := by
  decide

/-! ## Claim C4 -/

/-- Claim C4 counterexample: `archive_goal_cascade` on an id for which the
root UPDATE affects zero rows (no goal G1 exists) returns Ok with the
database unchanged, not a NotFound error: the method never checks the root
`rows_affected`. -/
theorem archive_goal_cascade_missing_id_returns_ok :
    Repository.archive_goal_cascade otherGoalDb "G1" 7 = Except.ok otherGoalDb := by
  decide

/-- Claim C4 (amended): `delete_life_area` returns NotFound (and changes
nothing) when its root UPDATE affects zero rows; `archive_goal_cascade`
performs no such check and returns Ok, leaving the database unchanged when
the id matches no row of any table it touches. -/
theorem cascade_root_zero_rows (db : Db) (id : String) (now : Nat) :
    (db.life_areas.countP (fun r => r.id == id && r.archived_at == none) = 0 →
      Repository.delete_life_area db id now =
        Except.error (AppError.not_found "Life area" id)) ∧
    ((∀ g ∈ db.goals, (g.id == id) = false) →
     (∀ p ∈ db.projects, (p.goal_id == id) = false) →
     (∀ n ∈ db.notes, (n.goal_id == some id) = false) →
      Repository.archive_goal_cascade db id now = Except.ok db) := by
  constructor
  · intro h
    unfold Repository.delete_life_area
    simp [h]
  · intro hg hp hn
    simp only [Repository.archive_goal_cascade]
    have h1 : updateWhere (fun g : Goal => g.id == id)
        (fun g => { g with archived_at := some now, updated_at := now }) db.goals
        = db.goals := updateWhere_eq_self hg
    have h2 : updateWhere (fun p : Project => p.goal_id == id && p.archived_at == none)
        (fun p => { p with archived_at := some now, updated_at := now }) db.projects
        = db.projects :=
      updateWhere_eq_self fun p hpm => by rw [hp p hpm, Bool.false_and]
    rw [h1, h2]
    have h3 : updateWhere
        (fun t : Task => (t.project_id.any fun pid =>
            db.projects.any fun p => p.id == pid && p.goal_id == id)
          && t.archived_at == none)
        (fun t => { t with archived_at := some now, updated_at := now }) db.tasks
        = db.tasks := by
      refine updateWhere_eq_self fun t _ => ?_
      have hopt : (t.project_id.any fun pid =>
          db.projects.any fun p => p.id == pid && p.goal_id == id) = false := by
        cases t.project_id with
        | none => rfl
        | some pid =>
          simp only [Option.any_some, List.any_eq_false]
          intro p hpm
          rw [hp p hpm, Bool.and_false]
          exact Bool.false_ne_true
      rw [hopt, Bool.false_and]
    have h4 : updateWhere (fun n : Note => n.goal_id == some id && n.archived_at == none)
        (fun n => { n with archived_at := some now, updated_at := now }) db.notes
        = db.notes :=
      updateWhere_eq_self fun n hnm => by rw [hn n hnm, Bool.false_and]
    rw [h3, h4]

/-- Witness for C4 (amended), at a database holding no row with id G1:
`delete_life_area` reports NotFound and `archive_goal_cascade` returns Ok
with the database unchanged. -/
theorem cascade_root_zero_rows_witness :
    Repository.delete_life_area otherGoalDb "G1" 7 =
      Except.error (AppError.not_found "Life area" "G1") ∧
    Repository.archive_goal_cascade otherGoalDb "G1" 7 = Except.ok otherGoalDb := by
  have h := cascade_root_zero_rows otherGoalDb "G1" 7
  exact ⟨h.1 (by decide), h.2 (by decide) (by decide) (by decide)⟩

/-! ## Claim C8 -/

/-- Claim C8: a hard delete of a goal with n > 0 dependent projects, or of a
life area with m > 0 dependent goals, fails with the conflict message
reporting the dependent count, and deletes nothing (the error return models
the early return taken before the DELETE statement is reached). -/
theorem hard_delete_blocked (db : Db) (gid laid : String) (n m : Nat)
    (hgc : db.projects.countP (fun p => p.goal_id == gid) = n) (hgpos : 0 < n)
    (hlc : db.goals.countP (fun g => g.life_area_id == laid) = m) (hlpos : 0 < m) :
    Commands.delete_goal db gid = Except.error
      ("Cannot delete goal: " ++ toString n ++
        " projects are still associated with it. Please delete or reassign them first.") ∧
    Commands.delete_life_area db laid = Except.error
      ("Cannot delete life area: " ++ toString m ++
        " goals are still associated with it. Please delete or reassign them first.") := by
  unfold Commands.delete_goal Commands.delete_life_area
  simp only [hgc, hlc]
  rw [if_pos hgpos, if_pos hlpos]
  exact ⟨rfl, rfl⟩

/-- Witness for C8: deleting goal G1 reports 2 blocking projects; deleting
life area L1 reports 3 blocking goals. -/
theorem hard_delete_blocked_witness :
    Commands.delete_goal blockedDb "G1" = Except.error
      ("Cannot delete goal: " ++ toString 2 ++
        " projects are still associated with it. Please delete or reassign them first.") ∧
    Commands.delete_life_area blockedDb "L1" = Except.error
      ("Cannot delete life area: " ++ toString 3 ++
        " goals are still associated with it. Please delete or reassign them first.") :=
  hard_delete_blocked blockedDb "G1" "L1" 2 3 (by decide) (by decide) (by decide) (by decide)

/-! ## Claim C9 -/

/-- Claim C9: `validate_path` rejects every absolute requested path with the
absolute-path security error; rejects every relative path whose
canonicalized resolution (resolving `..` and `.`) does not stay under the
base directory, with the path-traversal security error; and accepts a
relative path resolving inside the base, returning the canonicalized
resolved path. -/
theorem validate_path_spec (base : List String) (req : FsPath) :
    (req.absolute = true →
      validate_path base req =
        Except.error (DatabaseError.SecurityError "Absolute paths are not allowed")) ∧
    (req.absolute = false →
      base.isPrefixOf
          (canonicalizeAbs ((base.map Component.normal) ++ req.components)) = false →
      validate_path base req =
        Except.error (DatabaseError.SecurityError
          "Path traversal attempt detected: requested path is outside the allowed directory")) ∧
    (req.absolute = false →
      base.isPrefixOf
          (canonicalizeAbs ((base.map Component.normal) ++ req.components)) = true →
      validate_path base req =
        Except.ok (canonicalizeAbs ((base.map Component.normal) ++ req.components))) := by
  refine ⟨fun habs => ?_, fun habs hpre => ?_, fun habs hpre => ?_⟩
  · simp [validate_path, habs]
  · simp [validate_path, habs, hpre]
  · simp [validate_path, habs, hpre]

/-- Witness for C9: with base directory /home/app/data, the absolute path
/etc/passwd is rejected, the traversal ../../etc/passwd is rejected, and the
relative subdir/evorbrain.db is accepted and resolved in place. -/
theorem validate_path_spec_witness :
    validate_path ["home", "app", "data"]
        { absolute := true,
          components := [Component.normal "etc", Component.normal "passwd"] } =
      Except.error (DatabaseError.SecurityError "Absolute paths are not allowed") ∧
    validate_path ["home", "app", "data"]
        { absolute := false,
          components := [Component.parentDir, Component.parentDir,
            Component.normal "etc", Component.normal "passwd"] } =
      Except.error (DatabaseError.SecurityError
        "Path traversal attempt detected: requested path is outside the allowed directory") ∧
    validate_path ["home", "app", "data"]
        { absolute := false,
          components := [Component.normal "subdir", Component.normal "evorbrain.db"] } =
      Except.ok ["home", "app", "data", "subdir", "evorbrain.db"] := by
  refine ⟨(validate_path_spec _ _).1 rfl, (validate_path_spec _ _).2.1 rfl (by decide), ?_⟩
  rw [(validate_path_spec ["home", "app", "data"]
    { absolute := false,
      components := [Component.normal "subdir", Component.normal "evorbrain.db"] }).2.2
    rfl (by decide)]
  decide

/-! ## Claim C5 -/

theorem stampedOrSame_refl {α : Type} (l : List α) (arch : α → Option Nat)
    (upd : α → Nat) (now : Nat) : stampedOrSame l l arch upd now :=
  fun _ hy => Or.inl hy

theorem stampedOrSame_updateWhere {α : Type} {p : α → Bool} {f : α → α}
    {l : List α} {arch : α → Option Nat} {upd : α → Nat} {now : Nat}
    (hf : ∀ x, arch (f x) = some now ∧ upd (f x) = now) :
    stampedOrSame l (updateWhere p f l) arch upd now := by
  intro y hy
  obtain ⟨x, hx, hxy⟩ := mem_updateWhere hy
  by_cases hp : p x = true
  · right
    subst hxy
    simp only [hp, if_true]
    exact hf x
  · left
    subst hxy
    simp only [hp, if_false]
    simpa [hp] using hx

theorem stampedOrSame_trans {α : Type} {l m n : List α} {arch : α → Option Nat}
    {upd : α → Nat} {now : Nat} (h1 : stampedOrSame l m arch upd now)
    (h2 : stampedOrSame m n arch upd now) : stampedOrSame l n arch upd now := by
  intro y hy
  rcases h2 y hy with hm | hs
  · exact h1 y hm
  · exact Or.inr hs

/-- Claim C5: for each of the four cascade operations, a successful run
stamps every row it modifies — across all tables it touches — with the one
timestamp `now` captured at the start of the operation, in both
`archived_at` and `updated_at`; every other row is left exactly as it was. -/
theorem cascade_single_timestamp (db : Db) (id : String) (now : Nat) :
    (∀ db1, Repository.delete_life_area db id now = Except.ok db1 →
      cascadeStamp db db1 now) ∧
    (∀ db1, Repository.archive_goal_cascade db id now = Except.ok db1 →
      cascadeStamp db db1 now) ∧
    (∀ db1, Repository.archive_project_cascade db id now = Except.ok db1 →
      cascadeStamp db db1 now) ∧
    (∀ db1, Repository.archive_task_cascade db id now = Except.ok db1 →
      cascadeStamp db db1 now) := by
  refine ⟨fun db1 h => ?_, fun db1 h => ?_, fun db1 h => ?_, fun db1 h => ?_⟩
  · simp only [Repository.delete_life_area] at h
    split at h
    · exact absurd h (by simp)
    · injection h with h'
      subst h'
      exact ⟨stampedOrSame_updateWhere fun x => ⟨rfl, rfl⟩,
        stampedOrSame_updateWhere fun x => ⟨rfl, rfl⟩,
        stampedOrSame_updateWhere fun x => ⟨rfl, rfl⟩,
        stampedOrSame_updateWhere fun x => ⟨rfl, rfl⟩,
        stampedOrSame_updateWhere fun x => ⟨rfl, rfl⟩⟩
  · simp only [Repository.archive_goal_cascade] at h
    injection h with h'
    subst h'
    exact ⟨stampedOrSame_refl _ _ _ _,
      stampedOrSame_updateWhere fun x => ⟨rfl, rfl⟩,
      stampedOrSame_updateWhere fun x => ⟨rfl, rfl⟩,
      stampedOrSame_updateWhere fun x => ⟨rfl, rfl⟩,
      stampedOrSame_updateWhere fun x => ⟨rfl, rfl⟩⟩
  · simp only [Repository.archive_project_cascade] at h
    injection h with h'
    subst h'
    exact ⟨stampedOrSame_refl _ _ _ _,
      stampedOrSame_refl _ _ _ _,
      stampedOrSame_updateWhere fun x => ⟨rfl, rfl⟩,
      stampedOrSame_updateWhere fun x => ⟨rfl, rfl⟩,
      stampedOrSame_updateWhere fun x => ⟨rfl, rfl⟩⟩
  · simp only [Repository.archive_task_cascade] at h
    injection h with h'
    subst h'
    exact ⟨stampedOrSame_refl _ _ _ _,
      stampedOrSame_refl _ _ _ _,
      stampedOrSame_refl _ _ _ _,
      stampedOrSame_trans (stampedOrSame_updateWhere fun x => ⟨rfl, rfl⟩)
        (stampedOrSame_updateWhere fun x => ⟨rfl, rfl⟩),
      stampedOrSame_updateWhere fun x => ⟨rfl, rfl⟩⟩

/-- Witness for C5: each cascade run on the sample hierarchy succeeds and
every modified row carries the single timestamp 9. -/
theorem cascade_single_timestamp_witness :
    (Repository.delete_life_area sampleDb "L1" 9 = Except.ok sampleAfterDeleteLA ∧
      cascadeStamp sampleDb sampleAfterDeleteLA 9) ∧
    (Repository.archive_goal_cascade sampleDb "G1" 9 = Except.ok sampleAfterGoalCascade ∧
      cascadeStamp sampleDb sampleAfterGoalCascade 9) ∧
    (Repository.archive_project_cascade sampleDb "P1" 9 = Except.ok sampleAfterProjectCascade ∧
      cascadeStamp sampleDb sampleAfterProjectCascade 9) ∧
    (Repository.archive_task_cascade sampleDb "T1" 9 = Except.ok sampleAfterTaskCascade ∧
      cascadeStamp sampleDb sampleAfterTaskCascade 9) :=
  ⟨⟨by decide, (cascade_single_timestamp sampleDb "L1" 9).1 sampleAfterDeleteLA (by decide)⟩,
   ⟨by decide, (cascade_single_timestamp sampleDb "G1" 9).2.1 sampleAfterGoalCascade (by decide)⟩,
   ⟨by decide, (cascade_single_timestamp sampleDb "P1" 9).2.2.1 sampleAfterProjectCascade (by decide)⟩,
   ⟨by decide, (cascade_single_timestamp sampleDb "T1" 9).2.2.2 sampleAfterTaskCascade (by decide)⟩⟩

/-! ## Claim C7 -/

/-- Claim C7: after a cascade archive of life area `id` and then a restore
of the same id, the restore touched only the life-area row with that id:
every other table is exactly as the cascade left it, the restored row is
unarchived, life-area rows with other ids are unchanged, and every goal of
the area archived by the cascade still has a non-null `archived_at`. -/
theorem restore_un_archives_only_root (db db1 db2 : Db) (area : LifeArea)
    (id : String) (n1 n2 : Nat)
    (h1 : Repository.delete_life_area db id n1 = Except.ok db1)
    (h2 : Repository.restore_life_area db1 id n2 = Except.ok (db2, area)) :
    db2.goals = db1.goals ∧ db2.projects = db1.projects ∧
    db2.tasks = db1.tasks ∧ db2.notes = db1.notes ∧
    (∀ r ∈ db2.life_areas, r.id = id → r.archived_at = none) ∧
    (∀ r ∈ db2.life_areas, r.id ≠ id → r ∈ db1.life_areas) ∧
    (∀ g ∈ db2.goals, g.life_area_id = id → g.archived_at ≠ none) := by
  simp only [Repository.delete_life_area] at h1
  split at h1
  · exact absurd h1 (by simp)
  · injection h1 with h1'
    subst h1'
    simp only [Repository.restore_life_area] at h2
    split at h2
    · exact absurd h2 (by simp)
    · split at h2
      next r hrfind =>
        injection h2 with h2'
        injection h2' with hdb2 harea
        subst hdb2
        refine ⟨rfl, rfl, rfl, rfl, ?_, ?_, ?_⟩
        · intro y hy hyid
          obtain ⟨x, hx, hxy⟩ := mem_updateWhere hy
          by_cases hp : (x.id == id && x.archived_at != none) = true
          · subst hxy
            rw [if_pos hp]
          · subst hxy
            rw [if_neg hp] at hyid ⊢
            simp only [Bool.and_eq_true, beq_iff_eq, bne_iff_ne, not_and,
              not_not] at hp
            exact hp hyid
        · intro y hy hyid
          obtain ⟨x, hx, hxy⟩ := mem_updateWhere hy
          by_cases hp : (x.id == id && x.archived_at != none) = true
          · subst hxy
            rw [if_pos hp] at hyid
            simp only [Bool.and_eq_true, beq_iff_eq] at hp
            exact absurd hp.1 hyid
          · subst hxy
            rw [if_neg hp]
            exact hx
        · intro g hg hgl
          have hg' : g ∈ updateWhere
              (fun gg : Goal => gg.life_area_id == id && gg.archived_at == none)
              (fun gg => { gg with archived_at := some n1, updated_at := n1 })
              db.goals := hg
          obtain ⟨x, hx, hxg⟩ := mem_updateWhere hg'
          by_cases hp : (x.life_area_id == id && x.archived_at == none) = true
          · subst hxg
            rw [if_pos hp]
            simp
          · subst hxg
            rw [if_neg hp] at hgl ⊢
            simp only [Bool.and_eq_true, beq_iff_eq, not_and] at hp
            exact hp hgl
      next hrfind =>
        exact absurd h2 (by simp)

/-- Witness for C7: on the sample hierarchy, archive-cascade L1 at time 9
then restore L1 at time 11; the restore succeeds, L1 is unarchived, and the
goal table is untouched with G1 still archived. -/
theorem restore_un_archives_only_root_witness :
    Repository.delete_life_area sampleDb "L1" 9 = Except.ok sampleAfterDeleteLA ∧
    Repository.restore_life_area sampleAfterDeleteLA "L1" 11 =
      Except.ok (sampleRestored.1, sampleRestored.2) ∧
    sampleRestored.1.goals = sampleAfterDeleteLA.goals ∧
    (∀ r ∈ sampleRestored.1.life_areas, r.id = "L1" → r.archived_at = none) ∧
    (∀ g ∈ sampleRestored.1.goals, g.life_area_id = "L1" → g.archived_at ≠ none) := by
  have h := restore_un_archives_only_root sampleDb sampleAfterDeleteLA
    sampleRestored.1 sampleRestored.2 "L1" 9 11 (by decide) (by decide)
  exact ⟨by decide, by decide, h.1, h.2.2.2.2.1, h.2.2.2.2.2.2⟩

/-! ## Claim C10 -/

/-- Claim C10: `restore_life_area` on a life area that exists but is not
archived returns the NotFound error for an archived life area: the UPDATE
requires `archived_at IS NOT NULL`, so an active row matches zero rows and
the zero-rows-affected check produces the error (nothing is modified, since
the statement matched no row and the error return discards nothing else). -/
theorem restore_active_life_area_not_found (db : Db) (id : String) (now : Nat)
    (_hex : ∃ r ∈ db.life_areas, r.id = id ∧ r.archived_at = none)
    (hall : ∀ r ∈ db.life_areas, r.id = id → r.archived_at = none) :
    Repository.restore_life_area db id now =
      Except.error (AppError.not_found "Archived life area" id) := by
  have hcount : db.life_areas.countP (fun r => r.id == id && r.archived_at != none) = 0 := by
    rw [List.countP_eq_zero]
    intro r hr
    by_cases hid : r.id = id
    · have := hall r hr hid
      simp [hid, this]
    · simp [hid]
  unfold Repository.restore_life_area
  simp [hcount]

/-- Witness for C10: the sample database's life area L1 is active; restoring
it reports NotFound. -/
theorem restore_active_life_area_not_found_witness :
    Repository.restore_life_area sampleDb "L1" 7 =
      Except.error (AppError.not_found "Archived life area" "L1") :=
  restore_active_life_area_not_found sampleDb "L1" 7 (by decide) (by decide)

/-! ## Claims C3 and C6 -/

theorem migrateGo_ok {σ : Type} (exec : String → σ → Except String σ)
    (hashFn : String → String) (db0 : MigDb σ) :
    ∀ (ms : List Migration) (tx tx1 : MigDb σ),
    migrateGo exec hashFn db0 ms tx = Except.ok tx1 →
    tx1.ledger = tx.ledger ++ ledgerRowsOf hashFn (pendingOf db0 ms) ∧
    applyUps exec (pendingOf db0 ms) tx.schema = Except.ok tx1.schema := by
  intro ms
  induction ms with
  | nil =>
    intro tx tx1 h
    simp only [migrateGo] at h
    injection h with h'
    subst h'
    simp [pendingOf, ledgerRowsOf, applyUps]
  | cons m rest ih =>
    intro tx tx1 h
    simp only [migrateGo] at h
    by_cases ha : is_applied db0 m.version = true
    · rw [if_pos ha] at h
      have hres := ih tx tx1 h
      simpa [pendingOf, ha] using hres
    · rw [if_neg ha] at h
      cases hx : exec m.up tx.schema with
      | error e =>
        rw [hx] at h
        exact absurd h (by simp)
      | ok s1 =>
        rw [hx] at h
        dsimp only at h
        by_cases hd : (tx.ledger.any fun r => r.version == m.version) = true
        · rw [if_pos hd] at h
          exact absurd h (by simp)
        · rw [if_neg hd] at h
          have hres := ih _ tx1 h
          constructor
          · rw [hres.1]
            simp [pendingOf, ha, ledgerRowsOf]
          · have h2 := hres.2
            simp only [pendingOf, List.filter_cons, ha, Bool.not_false,
              if_true, applyUps, hx] at h2 ⊢
            exact h2

theorem migrateGo_all_applied {σ : Type} (exec : String → σ → Except String σ)
    (hashFn : String → String) (db0 : MigDb σ) :
    ∀ (ms : List Migration) (tx : MigDb σ),
    (∀ m ∈ ms, is_applied db0 m.version = true) →
    migrateGo exec hashFn db0 ms tx = Except.ok tx := by
  intro ms
  induction ms with
  | nil => intro tx _; rfl
  | cons m rest ih =>
    intro tx h
    simp only [migrateGo]
    rw [if_pos (h m (List.mem_cons_self m rest))]
    exact ih tx (fun x hx => h x (List.mem_cons_of_mem m hx))

theorem is_applied_iff {σ : Type} (db : MigDb σ) (v : Int) :
    is_applied db v = true ↔ ∃ r ∈ db.ledger, r.version = v := by
  unfold is_applied
  simp [List.countP_pos_iff, beq_iff_eq]

/-- Claim C3: a `migrate` call is atomic over the whole batch: either it
fails, in which case the committed database is exactly the pre-call one (no
`up` effect, no ledger row persists), or it succeeds and the committed
database extends the ledger by exactly one row per not-yet-applied script
and its schema is the result of running exactly those scripts' `up`
effects in order. -/
theorem migrate_batch_atomic {σ : Type} (exec : String → σ → Except String σ)
    (hashFn : String → String) (ms : List Migration) (db : MigDb σ) :
    (∃ e, migrate exec hashFn ms db = Except.error e ∧
       migrateCommitted exec hashFn ms db = db) ∨
    (∃ db1, migrate exec hashFn ms db = Except.ok db1 ∧
       migrateCommitted exec hashFn ms db = db1 ∧
       db1.ledger = db.ledger ++ ledgerRowsOf hashFn (pendingOf db ms) ∧
       applyUps exec (pendingOf db ms) db.schema = Except.ok db1.schema) := by
  cases hm : migrate exec hashFn ms db with
  | error e =>
    left
    exact ⟨e, rfl, by simp [migrateCommitted, hm]⟩
  | ok db1 =>
    right
    have hres := migrateGo_ok exec hashFn db ms db db1 hm
    exact ⟨db1, rfl, by simp [migrateCommitted, hm], hres.1, hres.2⟩

/-- Claim C6: once `migrate` has succeeded on a script list, running
`migrate` again with the same list is a no-op: it succeeds, re-executes no
`up` script, inserts no ledger row, and `get_applied_migrations` of the
committed state is unchanged. -/
theorem migrate_idempotent {σ : Type} (exec : String → σ → Except String σ)
    (hashFn : String → String) (ms : List Migration) (db db1 : MigDb σ)
    (h : migrate exec hashFn ms db = Except.ok db1) :
    migrate exec hashFn ms db1 = Except.ok db1 ∧
    get_applied_migrations (migrateCommitted exec hashFn ms db1) =
      get_applied_migrations db1 := by
  have hall : ∀ m ∈ ms, is_applied db1 m.version = true := by
    intro m hm
    rw [is_applied_iff]
    have hled := (migrateGo_ok exec hashFn db ms db db1 h).1
    by_cases ha : is_applied db m.version = true
    · obtain ⟨r, hr, hrv⟩ := (is_applied_iff db m.version).mp ha
      exact ⟨r, by rw [hled]; exact List.mem_append_left _ hr, hrv⟩
    · have hpend : m ∈ pendingOf db ms := by
        simp [pendingOf, List.mem_filter, hm, ha]
      refine ⟨⟨m.version, m.description, hashFn m.up⟩, ?_, rfl⟩
      rw [hled]
      refine List.mem_append_right _ ?_
      simp only [ledgerRowsOf, List.mem_map]
      exact ⟨m, hpend, rfl⟩
  have h2 : migrate exec hashFn ms db1 = Except.ok db1 :=
    migrateGo_all_applied exec hashFn db1 ms db1 hall
  exact ⟨h2, by simp [migrateCommitted, h2]⟩

/-- Witness for C6: after applying the demo migration, a second `migrate`
with the same list is a no-op and the applied-version list is unchanged. -/
theorem migrate_idempotent_witness :
    migrate execDemo hashDemo [migDemo] migDbApplied = Except.ok migDbApplied ∧
    get_applied_migrations (migrateCommitted execDemo hashDemo [migDemo] migDbApplied) =
      get_applied_migrations migDbApplied :=
  migrate_idempotent execDemo hashDemo [migDemo] { ledger := [], schema := 0 }
    migDbApplied (by decide)

end EvorBrain

